import Mathlib

/-!
Shallow embedding of the framebuffer graphics engine of `SFE_MicroOLED.cpp`
(SparkFun Micro OLED mbed driver).  The driver's page-organised screen buffer
`screenmemory` is modelled as a list of natural numbers (one entry per byte);
device-side SPI traffic is outside the model, so operations whose `ALL` branch
only talks to the controller leave the modelled buffer unchanged.  Machine
integers are modelled as `Nat`/`Int` with explicit reductions: `u8ofInt`
mirrors a C conversion of an `int` expression to `uint8_t`, and `i8` mirrors
storage into an `int8_t` (two's-complement wrapping, which is what the
compiled code does on overflow).
-/

set_option maxRecDepth 100000

namespace MicroOLED

/-- Modelled from the spec: the display dimensions of the missing header
`SFE_MicroOLED.h`.  The init sequence in the source ("Display Init sequence
for 64x48 OLED module", multiplex ratio 0x2F = 47) fixes a 64x48 panel. -/
def LCDWIDTH : Nat := 64

/-- Modelled from the spec: display height of the 64x48 panel (missing header). -/
def LCDHEIGHT : Nat := 48

/-- Modelled from the spec: the SET color constant of the missing header
(the source tests `color==WHITE`; the spec's two-valued color is SET/CLEAR). -/
def WHITE : Nat := 1

/-- Modelled from the spec: the CLEAR color constant of the missing header. -/
def BLACK : Nat := 0

/-- Modelled from the spec: the overwrite draw mode constant of the missing header. -/
def NORM : Nat := 0

/-- Modelled from the spec: the exclusive-or draw mode constant of the missing header. -/
def XOR : Nat := 1

/-- Modelled from the spec: the software-page-buffer clear mode of the missing header. -/
def PAGE : Nat := 0

/-- Modelled from the spec: the whole-controller-memory clear mode of the missing header. -/
def ALL : Nat := 1

/-- Conversion of an `int`-valued C expression to `uint8_t` (reduction mod 256). -/
def u8ofInt (z : Int) : Nat := (z % 256).toNat

/-- Storage of an `int`-valued C expression into an `int8_t`
(two's-complement wrap into the range -128..127). -/
def i8 (z : Int) : Int := (z + 128) % 256 - 128

/-- The `_BV(b)` macro: a byte with only bit `b` set. -/
def bv (b : Nat) : Nat := 1 <<< b

/-- The page screen buffer `screenmemory`: LCDWIDTH * LCDHEIGHT / 8 bytes. -/
abbrev Framebuffer := List Nat

/-- A freshly zeroed screen buffer, as left by `init`'s memset. -/
def emptyFB : Framebuffer := List.replicate (LCDWIDTH * LCDHEIGHT / 8) 0

/-- Read the framebuffer bit at (x,y) under the driver's addressing invariant
byte = x + (y/8)*LCDWIDTH, bit = y % 8 (spec section 3; the source exposes the
raw buffer via `getScreenBuffer`). -/
def readPixel (fb : Framebuffer) (x y : Nat) : Nat :=
  fb.getD (x + y / 8 * LCDWIDTH) 0 >>> (y % 8) &&& 1

/-- `MicroOLED::pixel(x,y,color,mode)`: bounds-guarded read-modify-write of one
bit.  NORM mode ors the bit in for WHITE and masks it out otherwise; XOR mode
toggles the bit only for WHITE. -/
def pixel (fb : Framebuffer) (x y color mode : Nat) : Framebuffer :=
  if LCDWIDTH ≤ x ∨ LCDHEIGHT ≤ y then fb
  else if mode = XOR then
    if color = WHITE then
      fb.set (x + y / 8 * LCDWIDTH)
        (Nat.xor (fb.getD (x + y / 8 * LCDWIDTH) 0) (bv (y % 8)))
    else fb
  else
    if color = WHITE then
      fb.set (x + y / 8 * LCDWIDTH)
        (Nat.lor (fb.getD (x + y / 8 * LCDWIDTH) 0) (bv (y % 8)))
    else
      fb.set (x + y / 8 * LCDWIDTH)
        (Nat.land (fb.getD (x + y / 8 * LCDWIDTH) 0) (Nat.xor 255 (bv (y % 8))))

/-- `MicroOLED::clear(mode)`: the ALL branch only streams zeros to the
controller (outside the model), the PAGE branch memsets the page buffer to 0. -/
def clear1 (mode : Nat) (fb : Framebuffer) : Framebuffer :=
  if mode = ALL then fb
  else List.replicate (LCDWIDTH * LCDHEIGHT / 8) 0

/-- `MicroOLED::clear(mode,c)`: the ALL branch only streams `c` to the
controller (outside the model), the PAGE branch memsets the page buffer to `c`
(and then transfers it to the device, which does not change the buffer). -/
def clear2 (mode : Nat) (c : Nat) (fb : Framebuffer) : Framebuffer :=
  if mode = ALL then fb
  else List.replicate (LCDWIDTH * LCDHEIGHT / 8) c

/-- A sequence of raw plot requests (x, y, color, mode) driven through the
`pixel` primitive, the way every draw primitive of the driver plots. -/
def plotSeq (fb : Framebuffer) (ps : List (Nat × Nat × Nat × Nat)) : Framebuffer :=
  ps.foldl (fun b p => pixel b p.1 p.2.1 p.2.2.1 p.2.2.2) fb

/-- The C expression `abs(a - b)` on two byte values promoted to int. -/
def natAbsDiff (a b : Nat) : Nat := ((a : Int) - b).natAbs

/-- The stepping loop of `MicroOLED::line`: for (; x0 < x1; x0++) plot (or plot
transposed when steep), then err -= dy, and on err < 0 step y by ystep and add
dx back.  `rem` is the remaining iteration count x1 - x0 of the C loop guard,
so the recursion is structural.  `err` lives in an `int8_t`, so every update
wraps through `i8`; `y0` lives in a `uint8_t`, so the ystep addition wraps
through `u8ofInt`. -/
def lineLoop (steep : Bool) (dx dy : Nat) (ystep : Int) (color mode : Nat) :
    Nat → Framebuffer → Nat → Nat → Int → Framebuffer
  | 0, fb, _, _, _ => fb
  | rem + 1, fb, x0, y0, err =>
    if i8 (err - (dy : Int)) < 0 then
      lineLoop steep dx dy ystep color mode rem
        (if steep then pixel fb y0 x0 color mode else pixel fb x0 y0 color mode)
        (x0 + 1) (u8ofInt ((y0 : Int) + ystep))
        (i8 (i8 (err - (dy : Int)) + (dx : Int)))
    else
      lineLoop steep dx dy ystep color mode rem
        (if steep then pixel fb y0 x0 color mode else pixel fb x0 y0 color mode)
        (x0 + 1) y0 (i8 (err - (dy : Int)))

/-- The prologue of `MicroOLED::line`: decide steepness by comparing
abs(y1-y0) with abs(x1-x0), transpose both endpoints when steep, then order
the endpoints by x.  Returns (steep, x0, y0, x1, y1) after both swaps. -/
def lineSetup (a0 b0 a1 b1 : Nat) : Bool × Nat × Nat × Nat × Nat :=
  if natAbsDiff b1 b0 > natAbsDiff a1 a0 then
    if b0 > b1 then (true, b1, a1, b0, a0) else (true, b0, a0, b1, a1)
  else
    if a0 > a1 then (false, a1, b1, a0, b0) else (false, a0, b0, a1, b1)

/-- `MicroOLED::line(x0,y0,x1,y1,color,mode)`: Bresenham stepping with
`uint8_t dx = x1 - x0`, `uint8_t dy = abs(y1 - y0)`, `int8_t err = dx / 2`,
and ystep +1 when y0 < y1 else -1. -/
def line (fb : Framebuffer) (a0 b0 a1 b1 color mode : Nat) : Framebuffer :=
  match lineSetup a0 b0 a1 b1 with
  | (steep, x0, y0, x1, y1) =>
    lineLoop steep ((x1 - x0) % 256) (natAbsDiff y1 y0 % 256)
      (if y0 < y1 then 1 else -1) color mode
      (x1 - x0) fb x0 y0 (i8 (((x1 - x0) % 256 / 2 : Nat) : Int))

/-- Modelled from the spec's words (claim C4): the stepping loop of the ideal
integer Bresenham algorithm as the spec describes it, with the error
accumulator as an unbounded integer: decremented by dy each step, incremented
by dx with a y-step whenever it goes negative, the loop running only for the
post-swap x values x0..x1-1. -/
def lineSpecLoop (steep : Bool) (dx dy : Nat) (ystep : Int) (color mode : Nat) :
    Nat → Framebuffer → Nat → Nat → Int → Framebuffer
  | 0, fb, _, _, _ => fb
  | rem + 1, fb, x0, y0, err =>
    if err - (dy : Int) < 0 then
      lineSpecLoop steep dx dy ystep color mode rem
        (if steep then pixel fb y0 x0 color mode else pixel fb x0 y0 color mode)
        (x0 + 1) (u8ofInt ((y0 : Int) + ystep)) (err - (dy : Int) + (dx : Int))
    else
      lineSpecLoop steep dx dy ystep color mode rem
        (if steep then pixel fb y0 x0 color mode else pixel fb x0 y0 color mode)
        (x0 + 1) y0 (err - (dy : Int))

/-- Modelled from the spec's words (claim C4): the line operation per the
spec's description of the integer Bresenham algorithm, with the error
accumulator an unbounded integer initialized to dx/2. -/
def lineSpec (fb : Framebuffer) (a0 b0 a1 b1 color mode : Nat) : Framebuffer :=
  match lineSetup a0 b0 a1 b1 with
  | (steep, x0, y0, x1, y1) =>
    lineSpecLoop steep ((x1 - x0) % 256) (natAbsDiff y1 y0 % 256)
      (if y0 < y1 then 1 else -1) color mode
      (x1 - x0) fb x0 y0 ((((x1 - x0) % 256 / 2 : Nat) : Int))

/-- `MicroOLED::lineH(x,y,width,color,mode)`: a line from (x,y) to
(x+width,y); the sum is truncated into the callee's `uint8_t` parameter. -/
def lineH (fb : Framebuffer) (x y width color mode : Nat) : Framebuffer :=
  line fb x y ((x + width) % 256) y color mode

/-- `MicroOLED::lineV(x,y,height,color,mode)`: a line from (x,y) to
(x,y+height); the sum is truncated into the callee's `uint8_t` parameter. -/
def lineV (fb : Framebuffer) (x y height color mode : Nat) : Framebuffer :=
  line fb x y x ((y + height) % 256) color mode

/-- `MicroOLED::rect(x,y,width,height,color,mode)`: two horizontal edges, then
`uint8_t tempHeight = height - 2` (8-bit wraparound), early return when
tempHeight < 1, else two vertical edges inset by one pixel. -/
def rect (fb : Framebuffer) (x y width height color mode : Nat) : Framebuffer :=
  let fb1 := lineH fb x y width color mode
  let fb2 := lineH fb1 x (u8ofInt ((y : Int) + height - 1)) width color mode
  if u8ofInt ((height : Int) - 2) < 1 then fb2
  else
    let fb3 := lineV fb2 x ((y + 1) % 256) (u8ofInt ((height : Int) - 2)) color mode
    lineV fb3 (u8ofInt ((x : Int) + width - 1)) ((y + 1) % 256)
      (u8ofInt ((height : Int) - 2)) color mode

/-- `MicroOLED::rectFill(x,y,width,height,color,mode)`: for (int i = x;
i < x + width; i++) lineV(i, y, height, color, mode); `i` is truncated into
lineV's `uint8_t` parameter. -/
def rectFill (fb : Framebuffer) (x y width height color mode : Nat) : Framebuffer :=
  (List.range' x width).foldl (fun b i => lineV b (i % 256) y height color mode) fb

/-- One C span `for (uint8_t i = a; i <= B; i++) plot(..., i, ...)`: the
counter `i` is a `uint8_t` while the bound `B` is an int expression, so when
B is 255 or more the loop can never exit (every byte value satisfies i <= B
and the increment wraps past 255); that divergence is modelled as `none`.
Otherwise the body runs for i = a..B (not at all when B < a). -/
def cspan (plot : Framebuffer → Nat → Framebuffer) (a : Nat) (B : Int)
    (fb : Framebuffer) : Option Framebuffer :=
  if 255 ≤ B then none
  else some ((List.range' a (B + 1 - (a : Int)).toNat).foldl plot fb)

/-- The while (x < y) loop of `MicroOLED::circleFill`: one octant step of the
midpoint algorithm per pass, then two pairs of symmetric vertical spans.
f, ddF_x, ddF_y, x and y are `int8_t` values, so every update wraps through
`i8`.  The structural `fuel` argument dominates the loop's true iteration
count (x strictly approaches y from below within -128..127), so fuel 256 is
never exhausted on the values the driver produces; exhaustion is `none`. -/
def circleFillLoop (x0 y0 color mode : Nat) :
    Nat → Framebuffer → Int → Int → Int → Int → Int → Option Framebuffer
  | 0, _, _, _, _, _, _ => none
  | fuel + 1, fb, f, ddFx, ddFy, x, y =>
    if x < y then
      let y1 := if 0 ≤ f then i8 (y - 1) else y
      let ddFy1 := if 0 ≤ f then i8 (ddFy + 2) else ddFy
      let f1 := if 0 ≤ f then i8 (f + ddFy1) else f
      let x1 := i8 (x + 1)
      let ddFx1 := i8 (ddFx + 2)
      let f2 := i8 (f1 + ddFx1)
      match cspan (fun b i =>
          pixel (pixel b (u8ofInt ((x0 : Int) + x1)) i color mode)
            (u8ofInt ((x0 : Int) - x1)) i color mode)
        (u8ofInt ((y0 : Int) - y1)) ((y0 : Int) + y1) fb with
      | none => none
      | some fb1 =>
        match cspan (fun b i =>
            pixel (pixel b (u8ofInt ((x0 : Int) + y1)) i color mode)
              (u8ofInt ((x0 : Int) - y1)) i color mode)
          (u8ofInt ((y0 : Int) - x1)) ((y0 : Int) + x1) fb1 with
        | none => none
        | some fb2 => circleFillLoop x0 y0 color mode fuel fb2 f2 ddFx1 ddFy1 x1 y1
    else some fb

/-- `MicroOLED::circleFill(x0,y0,radius,color,mode)`: XOR mode is unsupported
and returns before plotting anything (the source checks `mode==XOR` after its
pure local variable initialisations and before any drawing); otherwise a
central vertical span y0-radius..y0+radius is plotted, then the midpoint loop
fills span pairs.  `none` marks the C code's non-terminating span loops. -/
def circleFill (fb : Framebuffer) (x0 y0 radius color mode : Nat) :
    Option Framebuffer :=
  if mode = XOR then some fb
  else
    match cspan (fun b i => pixel b x0 i color mode)
        (u8ofInt ((y0 : Int) - radius)) ((y0 : Int) + radius) fb with
    | none => none
    | some fb1 =>
      circleFillLoop x0 y0 color mode 256 fb1 (i8 (1 - (radius : Int))) 1
        (i8 (-2 * (radius : Int))) 0 (i8 radius)

/-- Modelled from the spec: FONTHEADERSIZE of the missing header file — each
font resource starts with a 6-byte header (width, height, first character
code, glyph count, map-width high byte, map-width low byte) followed by the
glyph bitmap bytes. -/
def FONTHEADERSIZE : Nat := 6

/-- TOTALFONTS, defined in the source file. -/
def TOTALFONTS : Nat := 4

/-- The active-font fields of the MicroOLED class state, loaded by
`setFontType` and consumed by `drawChar`. -/
structure FontState where
  fontType : Nat
  fontWidth : Nat
  fontHeight : Nat
  fontStartChar : Nat
  fontTotalChar : Nat
  fontMapWidth : Nat
deriving DecidableEq

/-- `MicroOLED::setFontType(type)`: reject type >= TOTALFONTS returning false
with the state untouched, else return true and load the six state fields from
the selected font's header bytes (fontMapWidth decodes two bytes as
hi * 100 + lo).  The registered font byte tables (the external `fontsPointer`
data, whose files are not part of this repository's sources) are passed in
explicitly as `fonts`. -/
def setFontType (fonts : List (List Nat)) (st : FontState) (type : Nat) :
    Bool × FontState :=
  if TOTALFONTS ≤ type then (false, st)
  else
    (true,
      ⟨type,
       (fonts.getD type []).getD 0 0,
       (fonts.getD type []).getD 1 0,
       (fonts.getD type []).getD 2 0,
       (fonts.getD type []).getD 3 0,
       (fonts.getD type []).getD 4 0 * 100 + (fonts.getD type []).getD 5 0⟩)

/-- The C logical negation `!color`. -/
def notC (c : Nat) : Nat := if c = 0 then 1 else 0

/-- `MicroOLED::drawChar(x,y,c,color,mode)`: reject characters outside the
active font's range; for fonts up to one 8-pixel band (rowsToDraw == 1),
sweep fontWidth glyph columns plus one synthesized blank column, consuming
each column byte LSB-first, plotting color on 1 bits and !color on 0 bits;
for taller fonts locate the glyph tile in the bitmap sheet and decode
rowsToDraw bands the same way.  Coordinate sums wrap into pixel's uint8_t
parameters; the sheet index arithmetic lives in uint16_t variables. -/
def drawChar (fonts : List (List Nat)) (st : FontState) (fb : Framebuffer)
    (x y c color mode : Nat) : Framebuffer :=
  if c < st.fontStartChar
      ∨ (st.fontStartChar : Int) + st.fontTotalChar - 1 < (c : Int) then fb
  else if (if st.fontHeight / 8 ≤ 1 then 1 else st.fontHeight / 8) = 1 then
    (List.range (st.fontWidth + 1)).foldl (fun b i =>
      ((List.range 8).foldl (fun p j =>
          (if p.2 &&& 1 = 1 then
            pixel p.1 ((x + i) % 256) ((y + j) % 256) color mode
           else
            pixel p.1 ((x + i) % 256) ((y + j) % 256) (notC color) mode,
           p.2 >>> 1))
        (b, if i = st.fontWidth then 0
            else (fonts.getD st.fontType []).getD
              (FONTHEADERSIZE + (c - st.fontStartChar) * st.fontWidth + i) 0)).1) fb
  else
    (List.range (if st.fontHeight / 8 ≤ 1 then 1 else st.fontHeight / 8)).foldl
      (fun bR row =>
        (List.range st.fontWidth).foldl (fun b i =>
          ((List.range 8).foldl (fun p j =>
              (if p.2 &&& 1 = 1 then
                pixel p.1 ((x + i) % 256) ((y + j + row * 8) % 256) color mode
               else
                pixel p.1 ((x + i) % 256) ((y + j + row * 8) % 256) (notC color) mode,
               p.2 >>> 1))
            (b, (fonts.getD st.fontType []).getD
              (FONTHEADERSIZE +
                (((c - st.fontStartChar) / (st.fontMapWidth / st.fontWidth)
                    * st.fontMapWidth * (st.fontHeight / 8)
                  + (c - st.fontStartChar) % (st.fontMapWidth / st.fontWidth)
                    * st.fontWidth) % 65536
                 + i + row * st.fontMapWidth)) 0)).1) bR) fb

/-- Modelled from the spec's words (claim C9): single-band glyph rendering —
for each of the fontWidth glyph columns plus one extra all-background blank
column at column index fontWidth, decode the column byte
least-significant-bit-first into 8 successive rows of that column, plotting
the requested color where the bit is 1 and its inverse where the bit is 0. -/
def drawCharRowSpec (fonts : List (List Nat)) (st : FontState) (fb : Framebuffer)
    (x y c color mode : Nat) : Framebuffer :=
  (List.range (st.fontWidth + 1)).foldl (fun b i =>
    (List.range 8).foldl (fun b2 j =>
      pixel b2 ((x + i) % 256) ((y + j) % 256)
        (if (if i = st.fontWidth then 0
             else (fonts.getD st.fontType []).getD
               (FONTHEADERSIZE + (c - st.fontStartChar) * st.fontWidth + i) 0)
            >>> j &&& 1 = 1
         then color else notC color) mode) b) fb

/- List helper lemmas for the read-modify-write reasoning. -/

theorem getD_set_self (l : List Nat) (i : Nat) (a : Nat) (h : i < l.length) :
    (l.set i a).getD i 0 = a := by
  induction l generalizing i with
  | nil => simp at h
  | cons hd tl ih =>
    cases i with
    | zero => simp [List.set, List.getD]
    | succ n =>
      simp only [List.set, List.getD, List.get?]
      exact ih n (by simpa using h)

theorem set_getD_self (l : List Nat) (i : Nat) (h : i < l.length) :
    l.set i (l.getD i 0) = l := by
  induction l generalizing i with
  | nil => simp at h
  | cons hd tl ih =>
    cases i with
    | zero => simp [List.set, List.getD]
    | succ n =>
      show hd :: tl.set n (tl.getD n 0) = hd :: tl
      rw [ih n (by simpa using h)]

theorem xor_xor_cancel (a m : Nat) : Nat.xor (Nat.xor a m) m = a := by
  show a ^^^ m ^^^ m = a
  rw [Nat.xor_assoc, Nat.xor_self, Nat.xor_zero]

theorem getD_replicate_lt (n i a d : Nat) (h : i < n) :
    (List.replicate n a).getD i d = a := by
  induction n generalizing i with
  | zero => omega
  | succ m ih =>
    cases i with
    | zero => rfl
    | succ j =>
      show (List.replicate m a).getD j d = a
      exact ih j (by omega)

theorem byte255_bit (k : Nat) (h : k < 8) : 255 >>> k &&& 1 = 1 := by
  interval_cases k <;> decide

/-- C1: a pixel plot at any coordinate with x >= LCDWIDTH or y >= LCDHEIGHT
leaves every byte of the framebuffer unchanged, and therefore any sequence of
pixel plots (the way every draw primitive plots) whose coordinates all fall
outside the visible region leaves the framebuffer unchanged. -/
theorem pixel_clip_out_of_bounds :
    (∀ (fb : Framebuffer) (x y color mode : Nat),
      LCDWIDTH ≤ x ∨ LCDHEIGHT ≤ y → pixel fb x y color mode = fb)
    ∧ (∀ (fb : Framebuffer) (ps : List (Nat × Nat × Nat × Nat)),
        (∀ p ∈ ps, LCDWIDTH ≤ p.1 ∨ LCDHEIGHT ≤ p.2.1) → plotSeq fb ps = fb) := by
  have hpix : ∀ (fb : Framebuffer) (x y color mode : Nat),
      LCDWIDTH ≤ x ∨ LCDHEIGHT ≤ y → pixel fb x y color mode = fb := by
    intro fb x y color mode h
    unfold pixel
    rw [if_pos h]
  refine ⟨hpix, ?_⟩
  intro fb ps h
  induction ps generalizing fb with
  | nil => rfl
  | cons p t ih =>
    show plotSeq (pixel fb p.1 p.2.1 p.2.2.1 p.2.2.2) t = fb
    rw [hpix fb p.1 p.2.1 p.2.2.1 p.2.2.2 (h p (List.mem_cons_self p t))]
    exact ih fb fun q hq => h q (List.mem_cons_of_mem p hq)

/-- Witness for C1 at the concrete out-of-bounds coordinate (64,0). -/
theorem pixel_clip_out_of_bounds_witness :
    pixel emptyFB 64 0 WHITE NORM = emptyFB
    ∧ plotSeq emptyFB [(64, 0, 1, 0), (0, 48, 1, 1)] = emptyFB :=
  ⟨pixel_clip_out_of_bounds.1 emptyFB 64 0 WHITE NORM (Or.inl (by decide)),
   pixel_clip_out_of_bounds.2 emptyFB [(64, 0, 1, 0), (0, 48, 1, 1)] (by decide)⟩

/-- C2: on an in-bounds coordinate of the 384-byte buffer, plotting WHITE in
XOR mode twice restores the framebuffer exactly (hence the bit at that
coordinate), and plotting BLACK in XOR mode once is a no-op on the whole
framebuffer. -/
theorem xor_involution_and_clear_noop (fb : Framebuffer) (x y : Nat)
    (hl : fb.length = LCDWIDTH * LCDHEIGHT / 8)
    (hx : x < LCDWIDTH) (hy : y < LCDHEIGHT) :
    pixel (pixel fb x y WHITE XOR) x y WHITE XOR = fb
    ∧ pixel fb x y BLACK XOR = fb := by
  have hx' : x < 64 := hx
  have hy' : y < 48 := hy
  have hnb : ¬(LCDWIDTH ≤ x ∨ LCDHEIGHT ≤ y) := by
    simp only [LCDWIDTH, LCDHEIGHT]
    omega
  have hidx : x + y / 8 * LCDWIDTH < fb.length := by
    rw [hl]
    show x + y / 8 * 64 < 64 * 48 / 8
    omega
  constructor
  · have hinner : pixel fb x y WHITE XOR
        = fb.set (x + y / 8 * LCDWIDTH)
            (Nat.xor (fb.getD (x + y / 8 * LCDWIDTH) 0) (bv (y % 8))) := by
      unfold pixel
      rw [if_neg hnb, if_pos rfl, if_pos rfl]
    rw [hinner]
    unfold pixel
    rw [if_neg hnb, if_pos rfl, if_pos rfl,
        getD_set_self fb _ _ hidx, xor_xor_cancel, List.set_set,
        set_getD_self fb _ hidx]
  · unfold pixel
    rw [if_neg hnb, if_pos rfl, if_neg (by decide : ¬(BLACK = WHITE))]

/-- Witness for C2 at the concrete in-bounds coordinate (3,13). -/
theorem xor_involution_and_clear_noop_witness :
    emptyFB.length = LCDWIDTH * LCDHEIGHT / 8
    ∧ (3 : Nat) < LCDWIDTH ∧ (13 : Nat) < LCDHEIGHT
    ∧ (pixel (pixel emptyFB 3 13 WHITE XOR) 3 13 WHITE XOR = emptyFB
       ∧ pixel emptyFB 3 13 BLACK XOR = emptyFB) :=
  ⟨by simp [emptyFB], by decide, by decide,
   xor_involution_and_clear_noop emptyFB 3 13 (by simp [emptyFB]) (by decide) (by decide)⟩

/-- C3: the PAGE-mode clears memset the whole W*H/8-byte buffer to the fill
byte (0 for the one-argument variant), and the bit read back at the addressing
formula is CLEAR everywhere after filling with 0 and SET everywhere after
filling with 0xFF. -/
theorem clear_page_fills_buffer (fb : Framebuffer) (c x y : Nat)
    (hx : x < LCDWIDTH) (hy : y < LCDHEIGHT) :
    clear2 PAGE c fb = List.replicate (LCDWIDTH * LCDHEIGHT / 8) c
    ∧ clear1 PAGE fb = List.replicate (LCDWIDTH * LCDHEIGHT / 8) 0
    ∧ readPixel (clear2 PAGE 0 fb) x y = BLACK
    ∧ readPixel (clear2 PAGE 0xFF fb) x y = WHITE := by
  have hx' : x < 64 := hx
  have hy' : y < 48 := hy
  have hidx : x + y / 8 * LCDWIDTH < LCDWIDTH * LCDHEIGHT / 8 := by
    show x + y / 8 * 64 < 64 * 48 / 8
    omega
  refine ⟨rfl, rfl, ?_, ?_⟩
  · show readPixel (List.replicate (LCDWIDTH * LCDHEIGHT / 8) 0) x y = BLACK
    unfold readPixel
    rw [getD_replicate_lt _ _ _ _ hidx, Nat.zero_shiftRight]
    rfl
  · show readPixel (List.replicate (LCDWIDTH * LCDHEIGHT / 8) 255) x y = WHITE
    unfold readPixel
    rw [getD_replicate_lt _ _ _ _ hidx]
    exact byte255_bit (y % 8) (Nat.mod_lt _ (by omega))

theorem i8_eq_self (z : Int) (h1 : -128 ≤ z) (h2 : z ≤ 127) : i8 z = z := by
  unfold i8
  omega

theorem lineSetup_bounds (a0 b0 a1 b1 : Nat) (steep : Bool) (x0 y0 x1 y1 : Nat)
    (h : lineSetup a0 b0 a1 b1 = (steep, x0, y0, x1, y1)) :
    x1 - x0 = max (natAbsDiff a1 a0) (natAbsDiff b1 b0)
    ∧ natAbsDiff y1 y0 ≤ x1 - x0 := by
  unfold lineSetup at h
  unfold natAbsDiff at *
  split at h <;> split at h <;>
    (simp only [Prod.mk.injEq] at h
     obtain ⟨-, rfl, rfl, rfl, rfl⟩ := h
     constructor <;> omega)

theorem lineLoop_eq_spec_aux (steep : Bool) (dx dy : Nat) (ystep : Int)
    (color mode : Nat) (hdy : dy ≤ dx) (hdx : dx ≤ 127) :
    ∀ (rem : Nat) (fb : Framebuffer) (x0 y0 : Nat) (err : Int),
      0 ≤ err → err ≤ (dx : Int) →
      lineLoop steep dx dy ystep color mode rem fb x0 y0 err
        = lineSpecLoop steep dx dy ystep color mode rem fb x0 y0 err := by
  intro rem
  induction rem with
  | zero => intro fb x0 y0 err _ _; rfl
  | succ k ih =>
    intro fb x0 y0 err h0 hle
    show (if i8 (err - (dy : Int)) < 0 then
        lineLoop steep dx dy ystep color mode k
          (if steep then pixel fb y0 x0 color mode else pixel fb x0 y0 color mode)
          (x0 + 1) (u8ofInt ((y0 : Int) + ystep))
          (i8 (i8 (err - (dy : Int)) + (dx : Int)))
      else
        lineLoop steep dx dy ystep color mode k
          (if steep then pixel fb y0 x0 color mode else pixel fb x0 y0 color mode)
          (x0 + 1) y0 (i8 (err - (dy : Int))))
      = (if err - (dy : Int) < 0 then
        lineSpecLoop steep dx dy ystep color mode k
          (if steep then pixel fb y0 x0 color mode else pixel fb x0 y0 color mode)
          (x0 + 1) (u8ofInt ((y0 : Int) + ystep)) (err - (dy : Int) + (dx : Int))
      else
        lineSpecLoop steep dx dy ystep color mode k
          (if steep then pixel fb y0 x0 color mode else pixel fb x0 y0 color mode)
          (x0 + 1) y0 (err - (dy : Int)))
    have herr1 : i8 (err - (dy : Int)) = err - (dy : Int) :=
      i8_eq_self _ (by omega) (by omega)
    rw [herr1]
    by_cases hneg : err - (dy : Int) < 0
    · rw [if_pos hneg, if_pos hneg]
      have herr2 : i8 (err - (dy : Int) + (dx : Int))
          = err - (dy : Int) + (dx : Int) := i8_eq_self _ (by omega) (by omega)
      rw [herr2]
      exact ih _ _ _ _ (by omega) (by omega)
    · rw [if_neg hneg, if_neg hneg]
      exact ih _ _ _ _ (by omega) (by omega)

/-- C4 counterexample: on the endpoints (0,0)-(200,3) the code's rendering
differs from the spec's ideal Bresenham description, because the `int8_t`
error accumulator wraps once dx exceeds 127 (the plotted pixel at column 35 is
on row 2 instead of row 1). -/
theorem line_bresenham_counterexample :
    line emptyFB 0 0 200 3 WHITE NORM ≠ lineSpec emptyFB 0 0 200 3 WHITE NORM := by
  decide

/-- C4 (amended): whenever the dominant post-swap extent max(|x1-x0|,|y1-y0|)
is at most 127 — so the 8-bit signed error accumulator never wraps — the line
operation plots exactly per the spec's integer Bresenham description: error
accumulator dx/2, decremented by dy per step, incremented by dx with a y-step
when negative, the stepping loop covering only the post-swap x values
x0..x1-1 (so the endpoint may be omitted). -/
theorem line_refines_bresenham (fb : Framebuffer) (a0 b0 a1 b1 color mode : Nat)
    (h : max (natAbsDiff a1 a0) (natAbsDiff b1 b0) ≤ 127) :
    line fb a0 b0 a1 b1 color mode = lineSpec fb a0 b0 a1 b1 color mode := by
  rcases hs : lineSetup a0 b0 a1 b1 with ⟨steep, x0, y0, x1, y1⟩
  obtain ⟨hdx, hdy⟩ := lineSetup_bounds a0 b0 a1 b1 steep x0 y0 x1 y1 hs
  unfold line lineSpec
  rw [hs]
  show lineLoop steep ((x1 - x0) % 256) (natAbsDiff y1 y0 % 256)
      (if y0 < y1 then 1 else -1) color mode
      (x1 - x0) fb x0 y0 (i8 (((x1 - x0) % 256 / 2 : Nat) : Int))
    = lineSpecLoop steep ((x1 - x0) % 256) (natAbsDiff y1 y0 % 256)
      (if y0 < y1 then 1 else -1) color mode
      (x1 - x0) fb x0 y0 ((((x1 - x0) % 256 / 2 : Nat) : Int))
  rw [Nat.mod_eq_of_lt (by omega : x1 - x0 < 256),
      Nat.mod_eq_of_lt (by omega : natAbsDiff y1 y0 < 256)]
  rw [i8_eq_self _ (by omega) (by omega)]
  exact lineLoop_eq_spec_aux steep (x1 - x0) (natAbsDiff y1 y0)
    (if y0 < y1 then 1 else -1) color mode (by omega) (by omega)
    (x1 - x0) fb x0 y0 _ (by omega) (by omega)

/-- Witness for the amended C4 theorem on the short line (0,0)-(10,5). -/
theorem line_refines_bresenham_witness :
    max (natAbsDiff 10 0) (natAbsDiff 5 0) ≤ 127
    ∧ line emptyFB 0 0 10 5 WHITE NORM = lineSpec emptyFB 0 0 10 5 WHITE NORM :=
  ⟨by decide, line_refines_bresenham emptyFB 0 0 10 5 WHITE NORM (by decide)⟩

/-- C5: evaluation of the code at the failing input rect(0,0,2,0,WHITE,NORM).
The claim (and the source's own comment) say no vertical edges are drawn when
height < 2, so pixel (0,10) should stay CLEAR; but `uint8_t tempHeight =
height - 2` wraps to 254 and the code draws 254-pixel vertical edges, setting
pixel (0,10). -/
theorem rect_height_underflow_bug :
    readPixel (rect emptyFB 0 0 2 0 WHITE NORM) 0 10 = WHITE := by
  decide

/-- C8: rectFill is exactly the fold of width consecutive vertical lines
lineV(i, y, height) over i = x..x+width-1 (each column index truncated into
lineV's uint8_t parameter, as the C call does); in particular the filled
rectangle at (2,2) of width 4 and height 4 on a cleared buffer produces
exactly the four columns x = 2..5 with bits y = 2..5 set (byte 0x3C). -/
theorem rectFill_vertical_lines :
    (∀ (fb : Framebuffer) (x y width height color mode : Nat),
      rectFill fb x y width height color mode
        = (List.range' x width).foldl
            (fun b i => lineV b (i % 256) y height color mode) fb)
    ∧ rectFill emptyFB 2 2 4 4 WHITE NORM
        = (List.range 384).map (fun i => if 2 ≤ i ∧ i ≤ 5 then 60 else 0) :=
  ⟨fun _ _ _ _ _ _ _ => rfl, by decide⟩

theorem pixel_ite (c : Prop) [Decidable c] (b : Framebuffer)
    (X Y color1 color2 mode : Nat) :
    (if c then pixel b X Y color1 mode else pixel b X Y color2 mode)
      = pixel b X Y (if c then color1 else color2) mode := by
  split <;> rfl

theorem glyph_column_decode (X Y color mode temp : Nat) (b : Framebuffer) :
    ((List.range 8).foldl (fun p j =>
        (if p.2 &&& 1 = 1 then pixel p.1 X ((Y + j) % 256) color mode
         else pixel p.1 X ((Y + j) % 256) (notC color) mode,
         p.2 >>> 1)) (b, temp)).1
    = (List.range 8).foldl (fun b2 j =>
        pixel b2 X ((Y + j) % 256)
          (if temp >>> j &&& 1 = 1 then color else notC color) mode) b := by
  have h8 : List.range 8 = [0, 1, 2, 3, 4, 5, 6, 7] := rfl
  rw [h8]
  simp only [List.foldl_cons, List.foldl_nil]
  simp only [pixel_ite, Nat.shiftRight_zero, ← Nat.shiftRight_add]

/-- C6: for every center, radius and color, circleFill in XOR mode returns
immediately, leaving every byte of the framebuffer unchanged. -/
theorem circleFill_xor_unchanged (fb : Framebuffer) (x0 y0 radius color : Nat) :
    circleFill fb x0 y0 radius color XOR = some fb := rfl

/-- C7: setFontType fails on any index at or past TOTALFONTS leaving the
six active-font fields untouched, and on any smaller index succeeds and loads
all six fields from that font's header bytes. -/
theorem setFontType_range (fonts : List (List Nat)) (st : FontState) (type : Nat) :
    (TOTALFONTS ≤ type → setFontType fonts st type = (false, st))
    ∧ (type < TOTALFONTS →
        setFontType fonts st type
          = (true,
             ⟨type,
              (fonts.getD type []).getD 0 0,
              (fonts.getD type []).getD 1 0,
              (fonts.getD type []).getD 2 0,
              (fonts.getD type []).getD 3 0,
              (fonts.getD type []).getD 4 0 * 100 + (fonts.getD type []).getD 5 0⟩)) := by
  constructor
  · intro h
    unfold setFontType
    rw [if_pos h]
  · intro h
    unfold setFontType
    rw [if_neg (by omega)]

/-- Witness for C7: rejection at index 4 leaves a sentinel state unchanged,
selection at index 0 loads the header fields. -/
theorem setFontType_range_witness :
    (TOTALFONTS ≤ 4
     ∧ setFontType [[5, 8, 0, 255, 0, 5]] ⟨9, 9, 9, 9, 9, 9⟩ 4
        = (false, ⟨9, 9, 9, 9, 9, 9⟩))
    ∧ ((0 : Nat) < TOTALFONTS
       ∧ setFontType [[5, 8, 0, 255, 0, 5]] ⟨9, 9, 9, 9, 9, 9⟩ 0
          = (true, ⟨0, 5, 8, 0, 255, 5⟩)) :=
  ⟨⟨by decide, (setFontType_range [[5, 8, 0, 255, 0, 5]] ⟨9, 9, 9, 9, 9, 9⟩ 4).1 (by decide)⟩,
   ⟨by decide, (setFontType_range [[5, 8, 0, 255, 0, 5]] ⟨9, 9, 9, 9, 9, 9⟩ 0).2 (by decide)⟩⟩

/-- C9: for every character in the active font's range and every font of
height at most 8 (one band), drawChar renders exactly as the spec describes:
each glyph column byte decoded least-significant-bit-first into 8 successive
rows of one column, the requested color plotted on 1 bits and its inverse on
0 bits, plus one all-background blank column at column index fontWidth. -/
theorem drawChar_row1_decode (fonts : List (List Nat)) (st : FontState)
    (fb : Framebuffer) (x y c color mode : Nat)
    (hc1 : st.fontStartChar ≤ c)
    (hc2 : (c : Int) ≤ (st.fontStartChar : Int) + st.fontTotalChar - 1)
    (hh : st.fontHeight ≤ 8) :
    drawChar fonts st fb x y c color mode
      = drawCharRowSpec fonts st fb x y c color mode := by
  unfold drawChar drawCharRowSpec
  rw [if_neg (by rintro (h | h) <;> omega), if_pos (by
    rw [if_pos (show st.fontHeight / 8 ≤ 1 by omega)])]
  refine List.foldl_ext _ _ fb ?_
  intro b i _
  exact glyph_column_decode ((x + i) % 256) y color mode _ b

/-- Witness for C9: a 2x8 font starting at character 65 with 3 glyphs,
rendering character 66. -/
theorem drawChar_row1_decode_witness :
    (65 : Nat) ≤ 66 ∧ ((66 : Nat) : Int) ≤ ((65 : Nat) : Int) + (3 : Nat) - 1
    ∧ (8 : Nat) ≤ 8
    ∧ drawChar [[2, 8, 65, 3, 0, 0, 1, 2, 3, 5, 7, 8]] ⟨0, 2, 8, 65, 3, 0⟩
        emptyFB 0 0 66 WHITE NORM
      = drawCharRowSpec [[2, 8, 65, 3, 0, 0, 1, 2, 3, 5, 7, 8]] ⟨0, 2, 8, 65, 3, 0⟩
        emptyFB 0 0 66 WHITE NORM :=
  ⟨by decide, by decide, by decide,
   drawChar_row1_decode [[2, 8, 65, 3, 0, 0, 1, 2, 3, 5, 7, 8]] ⟨0, 2, 8, 65, 3, 0⟩
     emptyFB 0 0 66 WHITE NORM (by decide) (by decide) (by decide)⟩

/-- C10: for every character code outside the active font's supported range
(below the first character, or past first + count - 1 computed in int
arithmetic), drawChar returns with the framebuffer unchanged. -/
theorem drawChar_out_of_range_noop (fonts : List (List Nat)) (st : FontState)
    (fb : Framebuffer) (x y c color mode : Nat)
    (h : c < st.fontStartChar
         ∨ (st.fontStartChar : Int) + st.fontTotalChar - 1 < (c : Int)) :
    drawChar fonts st fb x y c color mode = fb := by
  unfold drawChar
  rw [if_pos h]

/-- Witness for C10: character 64 is below the font's first character 65. -/
theorem drawChar_out_of_range_noop_witness :
    ((64 : Nat) < (⟨0, 2, 8, 65, 3, 0⟩ : FontState).fontStartChar
     ∨ ((⟨0, 2, 8, 65, 3, 0⟩ : FontState).fontStartChar : Int)
        + (⟨0, 2, 8, 65, 3, 0⟩ : FontState).fontTotalChar - 1 < ((64 : Nat) : Int))
    ∧ drawChar [[2, 8, 65, 3, 0, 0, 1, 2, 3, 5, 7, 8]] ⟨0, 2, 8, 65, 3, 0⟩
        emptyFB 0 0 64 WHITE NORM = emptyFB :=
  ⟨by decide,
   drawChar_out_of_range_noop [[2, 8, 65, 3, 0, 0, 1, 2, 3, 5, 7, 8]]
     ⟨0, 2, 8, 65, 3, 0⟩ emptyFB 0 0 64 WHITE NORM (by decide)⟩

/-- Witness for C3 at the concrete coordinate (63,47) with fill byte 7. -/
theorem clear_page_fills_buffer_witness :
    (63 : Nat) < LCDWIDTH ∧ (47 : Nat) < LCDHEIGHT
    ∧ (clear2 PAGE 7 emptyFB = List.replicate (LCDWIDTH * LCDHEIGHT / 8) 7
       ∧ clear1 PAGE emptyFB = List.replicate (LCDWIDTH * LCDHEIGHT / 8) 0
       ∧ readPixel (clear2 PAGE 0 emptyFB) 63 47 = BLACK
       ∧ readPixel (clear2 PAGE 0xFF emptyFB) 63 47 = WHITE) :=
  ⟨by decide, by decide,
   clear_page_fills_buffer emptyFB 7 63 47 (by decide) (by decide)⟩

end MicroOLED
